import Mathlib

/-!
Verification of the OptiFind pipeline (optifind.py): region derivation,
configuration and catalogue parsing, axis-role resolution, per-source run
orchestration and catalogue merging, embedded shallowly as pure functions.
Pixel coordinates (floats produced by the WCS transform) are modelled as
rationals; all bounds and radii are integers, as in the source.
-/

/-- One axis pair of the region, as computed in the source:
`lo = max(0, floor(pix - radius))`, `hi = min(extent - 1, ceil(pix + radius))`. -/
def regionAxis (pix : ℚ) (radius extent : ℤ) : ℤ × ℤ :=
  (max 0 ⌊pix - (radius : ℚ)⌋, min (extent - 1) ⌈pix + (radius : ℚ)⌉)

/-- The six region bounds for one source, in the source's variable order
`x_min, x_max, y_min, y_max, z_min, z_max` (spatial1, spatial2, spectral). -/
structure Region where
  x_min : ℤ
  x_max : ℤ
  y_min : ℤ
  y_max : ℤ
  z_min : ℤ
  z_max : ℤ
deriving DecidableEq, Repr

/-- Region computation from optifind.py lines 184-189: spatial radius for the
two spatial axes, spectral radius for the spectral axis. -/
def computeRegion (px py pz : ℚ) (rSpat rSpec : ℤ) (ex ey ez : ℤ) : Region :=
  { x_min := (regionAxis px rSpat ex).1
    x_max := (regionAxis px rSpat ex).2
    y_min := (regionAxis py rSpat ey).1
    y_max := (regionAxis py rSpat ey).2
    z_min := (regionAxis pz rSpec ez).1
    z_max := (regionAxis pz rSpec ez).2 }

/-- Bounds check from optifind.py line 192: the region is accepted iff each
axis window is at least the radius of its family. -/
def regionInBounds (r : Region) (rSpat rSpec : ℤ) : Bool :=
  decide (r.x_max - r.x_min ≥ rSpat ∧ r.y_max - r.y_min ≥ rSpat ∧
    r.z_max - r.z_min ≥ rSpec)

/-- Clamping of an integer into the closed interval `[lo, hi]`. -/
def clampInt (v lo hi : ℤ) : ℤ := min hi (max lo v)

/-- The spec wording's reading of the region axis: lower and upper EACH
clamped into `[0, extent-1]` (two-sided clamping). -/
def regionAxisSpec (pix : ℚ) (radius extent : ℤ) : ℤ × ℤ :=
  (clampInt ⌊pix - (radius : ℚ)⌋ 0 (extent - 1),
   clampInt ⌈pix + (radius : ℚ)⌉ 0 (extent - 1))

/-- The six region bounds under the two-sided-clamp reading of the spec. -/
def computeRegionSpec (px py pz : ℚ) (rSpat rSpec : ℤ) (ex ey ez : ℤ) : Region :=
  { x_min := (regionAxisSpec px rSpat ex).1
    x_max := (regionAxisSpec px rSpat ex).2
    y_min := (regionAxisSpec py rSpat ey).1
    y_max := (regionAxisSpec py rSpat ey).2
    z_min := (regionAxisSpec pz rSpec ez).1
    z_max := (regionAxisSpec pz rSpec ez).2 }

/-- Acceptance as the spec sentence words it, on the two-sided-clamped
bounds. -/
def regionAcceptSpec (px py pz : ℚ) (rSpat rSpec : ℤ) (ex ey ez : ℤ) : Bool :=
  regionInBounds (computeRegionSpec px py pz rSpat rSpec ex ey ez) rSpat rSpec

/-- Evaluation of the source's region axis at an integer-valued pixel. -/
lemma regionAxis_int (n r e : ℤ) :
    regionAxis (n : ℚ) r e = (max 0 (n - r), min (e - 1) (n + r)) := by
  unfold regionAxis
  rw [← Int.cast_sub, Int.floor_intCast, ← Int.cast_add, Int.ceil_intCast]

/-- Evaluation of the spec's region axis at an integer-valued pixel. -/
lemma regionAxisSpec_int (n r e : ℤ) :
    regionAxisSpec (n : ℚ) r e =
      (clampInt (n - r) 0 (e - 1), clampInt (n + r) 0 (e - 1)) := by
  unfold regionAxisSpec
  rw [← Int.cast_sub, Int.floor_intCast, ← Int.cast_add, Int.ceil_intCast]

/-- The floor of `pix - radius` never exceeds the ceiling of `pix + radius`
when the radius is nonnegative. -/
lemma floor_le_ceil_radius (p : ℚ) (r : ℤ) (hr : 0 ≤ r) :
    ⌊p - (r : ℚ)⌋ ≤ ⌈p + (r : ℚ)⌉ := by
  have h1 : ((⌊p - (r : ℚ)⌋ : ℤ) : ℚ) ≤ p - r := Int.floor_le _
  have h2 : (p + (r : ℚ)) ≤ ((⌈p + (r : ℚ)⌉ : ℤ) : ℚ) := Int.le_ceil _
  have hrq : (0 : ℚ) ≤ (r : ℚ) := by exact_mod_cast hr
  have h3 : ((⌊p - (r : ℚ)⌋ : ℤ) : ℚ) ≤ ((⌈p + (r : ℚ)⌉ : ℤ) : ℚ) := by linarith
  exact_mod_cast h3

/-- Per-axis agreement of the source's one-sided clamping with the spec's
two-sided clamping, for admissible radius and extent. -/
lemma axis_accept_equiv (a b r e : ℤ) (hab : a ≤ b) (hr : 1 ≤ r) (he : 1 ≤ e) :
    (min (e - 1) b - max 0 a ≥ r ↔
      clampInt b 0 (e - 1) - clampInt a 0 (e - 1) ≥ r) ∧
    (min (e - 1) b - max 0 a ≥ r →
      max 0 a = clampInt a 0 (e - 1) ∧ min (e - 1) b = clampInt b 0 (e - 1)) := by
  unfold clampInt
  omega

/-- C1: the claim's two-sided-clamp reading disagrees with the code: with
spatial radius 0 on a 10-pixel axis and a source at pixel -5, the code
rejects the region while the spec formula accepts it. -/
theorem C1_clamp_counterexample :
    regionInBounds
        (computeRegion ((-5 : ℤ) : ℚ) ((5 : ℤ) : ℚ) ((5 : ℤ) : ℚ) 0 0 10 10 10) 0 0 = false ∧
    regionAcceptSpec ((-5 : ℤ) : ℚ) ((5 : ℤ) : ℚ) ((5 : ℤ) : ℚ) 0 0 10 10 10 = true := by
  constructor
  · unfold regionInBounds computeRegion
    rw [regionAxis_int (-5) 0 10, regionAxis_int (5) 0 10]
    decide
  · unfold regionAcceptSpec regionInBounds computeRegionSpec
    rw [regionAxisSpec_int (-5) 0 10, regionAxisSpec_int (5) 0 10]
    decide

/-- C1 (amended): the code clamps the lower bound only from below at 0 and the
upper bound only from above at extent-1; whenever both radii and all extents
are at least 1, its acceptance decision agrees with the spec's two-sided-clamp
reading, and every accepted region's bounds equal the two-sided-clamped ones
(hence lie inside `[0, extent-1]`); acceptance holds iff each axis window is
at least the radius of its family, so a window exactly equal to the radius is
accepted and one unit narrower is rejected. -/
theorem C1_region_accept_amended (px py pz : ℚ) (rSpat rSpec ex ey ez : ℤ)
    (hrs : 1 ≤ rSpat) (hrc : 1 ≤ rSpec)
    (hex : 1 ≤ ex) (hey : 1 ≤ ey) (hez : 1 ≤ ez) :
    (regionInBounds (computeRegion px py pz rSpat rSpec ex ey ez) rSpat rSpec
      = regionAcceptSpec px py pz rSpat rSpec ex ey ez)
    ∧ (regionInBounds (computeRegion px py pz rSpat rSpec ex ey ez) rSpat rSpec = true →
        computeRegion px py pz rSpat rSpec ex ey ez
          = computeRegionSpec px py pz rSpat rSpec ex ey ez)
    ∧ (regionInBounds (computeRegion px py pz rSpat rSpec ex ey ez) rSpat rSpec = true ↔
        ((computeRegion px py pz rSpat rSpec ex ey ez).x_max
            - (computeRegion px py pz rSpat rSpec ex ey ez).x_min ≥ rSpat
          ∧ (computeRegion px py pz rSpat rSpec ex ey ez).y_max
            - (computeRegion px py pz rSpat rSpec ex ey ez).y_min ≥ rSpat
          ∧ (computeRegion px py pz rSpat rSpec ex ey ez).z_max
            - (computeRegion px py pz rSpat rSpec ex ey ez).z_min ≥ rSpec)) := by
  have hx := floor_le_ceil_radius px rSpat (by omega)
  have hy := floor_le_ceil_radius py rSpat (by omega)
  have hz := floor_le_ceil_radius pz rSpec (by omega)
  have Hx := axis_accept_equiv _ _ rSpat ex hx hrs hex
  have Hy := axis_accept_equiv _ _ rSpat ey hy hrs hey
  have Hz := axis_accept_equiv _ _ rSpec ez hz hrc hez
  unfold regionAcceptSpec computeRegion computeRegionSpec regionInBounds
    regionAxis regionAxisSpec
  simp only [decide_eq_decide, decide_eq_true_eq, Region.mk.injEq]
  refine ⟨and_congr Hx.1 (and_congr Hy.1 Hz.1), ?_, trivial⟩
  rintro ⟨ha, hb, hc⟩
  exact ⟨(Hx.2 ha).1, (Hx.2 ha).2, (Hy.2 hb).1, (Hy.2 hb).2, (Hz.2 hc).1, (Hz.2 hc).2⟩

/-- Witness for C1_region_accept_amended: radii 1, extents 10, pixel 5 on all
axes; the code's acceptance agrees with the spec reading there. -/
theorem C1_region_accept_amended_witness :
    ((1 : ℤ) ≤ 1 ∧ (1 : ℤ) ≤ 1 ∧ (1 : ℤ) ≤ 10 ∧ (1 : ℤ) ≤ 10 ∧ (1 : ℤ) ≤ 10) ∧
    regionInBounds (computeRegion ((5 : ℤ) : ℚ) ((5 : ℤ) : ℚ) ((5 : ℤ) : ℚ) 1 1 10 10 10) 1 1
      = regionAcceptSpec ((5 : ℤ) : ℚ) ((5 : ℤ) : ℚ) ((5 : ℤ) : ℚ) 1 1 10 10 10 :=
  ⟨by decide,
    (C1_region_accept_amended ((5 : ℤ) : ℚ) ((5 : ℤ) : ℚ) ((5 : ℤ) : ℚ) 1 1 10 10 10
      (by decide) (by decide) (by decide) (by decide) (by decide)).1⟩

/-- Case-exact vocabulary for the first spatial role (line 149). -/
def isSpatial1Type (t : String) : Bool := t == "RA" || t == "GLON"

/-- Case-exact vocabulary for the second spatial role (line 150). -/
def isSpatial2Type (t : String) : Bool := t == "DEC" || t == "GLAT"

/-- Case-exact vocabulary for the spectral role (line 151). -/
def isSpectralType (t : String) : Bool :=
  t == "FREQ" || t == "VELO" || t == "VRAD" || t == "VOPT" || t == "FELO"

lemma sp1_not_sp2 {t : String} (h : isSpatial1Type t = true) :
    isSpatial2Type t = false := by
  simp only [isSpatial1Type, Bool.or_eq_true, beq_iff_eq] at h
  rcases h with h | h <;> subst h <;> decide

lemma sp1_not_spec {t : String} (h : isSpatial1Type t = true) :
    isSpectralType t = false := by
  simp only [isSpatial1Type, Bool.or_eq_true, beq_iff_eq] at h
  rcases h with h | h <;> subst h <;> decide

lemma sp2_not_spec {t : String} (h : isSpatial2Type t = true) :
    isSpectralType t = false := by
  simp only [isSpatial2Type, Bool.or_eq_true, beq_iff_eq] at h
  rcases h with h | h <;> subst h <;> decide

/-- The axis-role scan of lines 147-151: one pass over the axis types in the
given order, each match overwriting the stored index for its role; `i` is the
index of the first element of the remaining list. -/
def axesLoop : List String → ℤ × ℤ × ℤ → ℤ → ℤ × ℤ × ℤ
  | [], a, _ => a
  | t :: rest, (a0, a1, a2), i =>
    if isSpatial1Type t then axesLoop rest (i, a1, a2) (i + 1)
    else if isSpatial2Type t then axesLoop rest (a0, i, a2) (i + 1)
    else if isSpectralType t then axesLoop rest (a0, a1, i) (i + 1)
    else axesLoop rest (a0, a1, a2) (i + 1)

/-- Axis role resolution: the scan started from `axes = [-1, -1, -1]`. -/
def resolveAxes (axis_type : List String) : ℤ × ℤ × ℤ :=
  axesLoop axis_type (-1, -1, -1) 0

/-- The fatal check of line 152: resolution succeeds iff no role is left
at the sentinel -1. -/
def axesResolved (axis_type : List String) : Bool :=
  let a := resolveAxes axis_type
  !(a.1 == -1 || a.2.1 == -1 || a.2.2 == -1)

/-- Position of the last element satisfying `p`, counted from the front. -/
def lastMatch (p : String → Bool) : List String → Option ℕ
  | [] => none
  | t :: rest =>
    match lastMatch p rest with
    | some j => some (j + 1)
    | none => if p t then some 0 else none

/-- Index of the last match of `p`, with the sentinel -1 when there is none. -/
def lastMatchIdx (p : String → Bool) (l : List String) : ℤ :=
  match lastMatch p l with
  | some j => (j : ℤ)
  | none => -1

/-- The stored role index after scanning a suffix starting at offset `i`:
the last match within the suffix if any, else the inherited value. -/
def withLast (a i : ℤ) : Option ℕ → ℤ
  | some j => i + (j : ℤ)
  | none => a

lemma axesLoop_eq (l : List String) : ∀ a0 a1 a2 i,
    axesLoop l (a0, a1, a2) i =
      (withLast a0 i (lastMatch isSpatial1Type l),
       withLast a1 i (lastMatch isSpatial2Type l),
       withLast a2 i (lastMatch isSpectralType l)) := by
  induction l with
  | nil => intro a0 a1 a2 i; simp [axesLoop, withLast, lastMatch]
  | cons t rest ih =>
    intro a0 a1 a2 i
    cases h1 : isSpatial1Type t with
    | true =>
      have h2 := sp1_not_sp2 h1
      have h3 := sp1_not_spec h1
      simp only [axesLoop, h1, h2, h3, if_true, Bool.false_eq_true, if_false]
      rw [ih]
      simp only [lastMatch, h1, h2, h3, if_true, Bool.false_eq_true, if_false]
      cases hx : lastMatch isSpatial1Type rest <;>
        cases hy : lastMatch isSpatial2Type rest <;>
          cases hz : lastMatch isSpectralType rest <;>
            simp [withLast] <;> omega <;> omega
    | false =>
      cases h2 : isSpatial2Type t with
      | true =>
        have h3 := sp2_not_spec h2
        simp only [axesLoop, h1, h2, h3, if_true, Bool.false_eq_true, if_false]
        rw [ih]
        simp only [lastMatch, h1, h2, h3, if_true, Bool.false_eq_true, if_false]
        cases hx : lastMatch isSpatial1Type rest <;>
          cases hy : lastMatch isSpatial2Type rest <;>
            cases hz : lastMatch isSpectralType rest <;>
              simp [withLast] <;> omega <;> omega
      | false =>
        cases h3 : isSpectralType t with
        | true =>
          simp only [axesLoop, h1, h2, h3, if_true, Bool.false_eq_true, if_false]
          rw [ih]
          simp only [lastMatch, h1, h2, h3, if_true, Bool.false_eq_true, if_false]
          cases hx : lastMatch isSpatial1Type rest <;>
            cases hy : lastMatch isSpatial2Type rest <;>
              cases hz : lastMatch isSpectralType rest <;>
                simp [withLast] <;> omega
        | false =>
          simp only [axesLoop, h1, h2, h3, Bool.false_eq_true, if_false]
          rw [ih]
          simp only [lastMatch, h1, h2, h3, Bool.false_eq_true, if_false]
          cases hx : lastMatch isSpatial1Type rest <;>
            cases hy : lastMatch isSpatial2Type rest <;>
              cases hz : lastMatch isSpectralType rest <;>
                simp [withLast] <;> omega

lemma lastMatch_isSome (p : String → Bool) (l : List String) :
    (lastMatch p l).isSome = l.any p := by
  induction l with
  | nil => simp [lastMatch]
  | cons t rest ih =>
    simp only [lastMatch, List.any_cons]
    cases h : lastMatch p rest with
    | some j => simp [h] at ih; simp [ih]
    | none =>
      cases hp : p t
      · simp [h] at ih; simp [hp, ih]; exact ih
      · simp [h] at ih; simp [hp, ih]

/-- C5: axis role resolution scans the axis types in the given order against
the three case-exact vocabularies; the stored index for each role is the LAST
matching axis (later matches overwrite earlier ones), with -1 when no axis
matches, and the fatal check fails exactly when at least one of the three
roles has no matching axis. -/
theorem C5_axis_role_resolution (axis_type : List String) :
    resolveAxes axis_type =
      (lastMatchIdx isSpatial1Type axis_type,
       lastMatchIdx isSpatial2Type axis_type,
       lastMatchIdx isSpectralType axis_type)
    ∧ (axesResolved axis_type =
        (axis_type.any isSpatial1Type && axis_type.any isSpatial2Type
          && axis_type.any isSpectralType)) := by
  have h := axesLoop_eq axis_type (-1) (-1) (-1) 0
  have h1 := lastMatch_isSome isSpatial1Type axis_type
  have h2 := lastMatch_isSome isSpatial2Type axis_type
  have h3 := lastMatch_isSome isSpectralType axis_type
  constructor
  · rw [resolveAxes, h]
    unfold lastMatchIdx withLast
    cases lastMatch isSpatial1Type axis_type <;>
      cases lastMatch isSpatial2Type axis_type <;>
        cases lastMatch isSpectralType axis_type <;> simp
  · unfold axesResolved resolveAxes
    rw [h]
    cases hx : lastMatch isSpatial1Type axis_type <;>
      cases hy : lastMatch isSpatial2Type axis_type <;>
        cases hz : lastMatch isSpectralType axis_type <;>
          rw [hx] at h1 <;> rw [hy] at h2 <;> rw [hz] at h3 <;>
            simp only [Option.isSome] at h1 h2 h3 <;>
              rw [← h1, ← h2, ← h3] <;>
                simp [withLast]

/-- Python single-character `str.replace`: every occurrence of `a` becomes `b`. -/
def replaceChar (s : String) (a b : Char) : String :=
  ⟨s.data.map (fun c => if c = a then b else c)⟩

/-- The id sanitization of line 200: first every space becomes an underscore,
then every slash becomes a dash. -/
def sanitizeId (id : String) : String :=
  replaceChar (replaceChar id ' ' '_') '/' '-'

/-- The per-run output base name of lines 200-205: the template's
`output.filename` value (a truthy, i.e. non-empty, string) plus `_` plus the
sanitized id, or `optifind` plus that suffix when the template value is blank. -/
def deriveOutputFilename (templateValue id : String) : String :=
  let suffix := "_" ++ sanitizeId id
  if templateValue ≠ "" then templateValue ++ suffix else "optifind" ++ suffix

/-- Sanitization as the spec words it: each space replaced by an underscore
and each slash by a dash, in one pass. -/
def sanitizeIdSpec (id : String) : String :=
  ⟨id.data.map (fun c => if c = ' ' then '_' else if c = '/' then '-' else c)⟩

/-- C7: the per-run output filename is the template's `output.filename` value
plus `_` plus the sanitized id when that value is non-blank, and `optifind_`
plus the sanitized id when it is blank, where sanitization replaces each
space in the id by `_` and each `/` by `-`; in particular id `Source A/1`
yields suffix `Source_A-1`. -/
theorem C7_output_filename_derivation (templateValue id : String) :
    deriveOutputFilename templateValue id =
      (if templateValue ≠ "" then templateValue ++ "_" ++ sanitizeIdSpec id
        else "optifind_" ++ sanitizeIdSpec id)
    ∧ sanitizeId "Source A/1" = "Source_A-1" := by
  have hs : ∀ s : String, sanitizeId s = sanitizeIdSpec s := by
    intro s
    unfold sanitizeId sanitizeIdSpec replaceChar
    cases s with
    | mk data =>
      simp only [List.map_map]
      congr 1
      apply List.map_congr_left
      intro c _
      by_cases h1 : c = ' '
      · subst h1; simp
      · by_cases h2 : c = '/'
        · subst h2; simp
        · simp [Function.comp, h1, h2]
  refine ⟨?_, by rw [hs]; decide⟩
  unfold deriveOutputFilename
  rw [hs]
  by_cases h : templateValue = ""
  · subst h
    simp only [ne_eq, not_true_eq_false, if_false, ite_false]
    rw [← String.append_assoc]
    congr 1
  · simp only [h, ne_eq, not_false_eq_true, if_true, ite_true]
    rw [← String.append_assoc]

/-- Whitespace in the sense of Python's `str.strip` / `str.isspace`. -/
def isWS (c : Char) : Bool := c.isWhitespace

/-- Python `str.strip` on the underlying character list: drop leading and
trailing whitespace. -/
def pstripL (l : List Char) : List Char :=
  List.rdropWhile isWS (List.dropWhile isWS l)

/-- Python `str.strip`. -/
def pstrip (s : String) : String := ⟨pstripL s.data⟩

lemma dropWhile_head_false (p : Char → Bool) :
    ∀ l c t, List.dropWhile p l = c :: t → p c = false := by
  intro l
  induction l with
  | nil => intro c t h; simp at h
  | cons a l ih =>
    intro c t h
    by_cases hp : p a = true
    · rw [List.dropWhile_cons_of_pos hp] at h; exact ih c t h
    · rw [List.dropWhile_cons_of_neg hp] at h
      injection h with h1 h2
      subst h1
      simpa using hp

lemma dropWhile_rdropWhile_dropWhile (p : Char → Bool) (l : List Char) :
    List.dropWhile p (List.rdropWhile p (List.dropWhile p l))
      = List.rdropWhile p (List.dropWhile p l) := by
  cases h : List.dropWhile p l with
  | nil => simp [List.rdropWhile]
  | cons c t =>
    have hc : ¬p c = true := by
      have := dropWhile_head_false p l c t h
      simp [this]
    have hpre : List.rdropWhile p (c :: t) <+: c :: t := List.rdropWhile_prefix _ _
    cases h2 : List.rdropWhile p (c :: t) with
    | nil => simp
    | cons d s =>
      rw [h2] at hpre
      obtain ⟨hd, -⟩ := List.cons_prefix_cons.mp hpre
      subst hd
      rw [List.dropWhile_cons_of_neg hc]

/-- Stripping is idempotent. -/
lemma pstripL_idem (l : List Char) : pstripL (pstripL l) = pstripL l := by
  unfold pstripL
  rw [dropWhile_rdropWhile_dropWhile, List.rdropWhile_idempotent]

/-- Stripped lists only lose elements: membership is preserved downward. -/
lemma mem_pstripL {c : Char} {l : List Char} (h : c ∈ pstripL l) : c ∈ l := by
  unfold pstripL at h
  exact (List.dropWhile_suffix isWS).subset ((List.rdropWhile_prefix _ _).subset h)

/-- One line of the parameter file, lines 118-128 of optifind.py: `none` when
the line is skipped (blank after stripping, `#` comment, or without `=`),
otherwise the stored key/value pair: split on the first `=`, both sides
stripped, and everything from an inline `#` onward dropped from the value. -/
def parseParLine (line : String) : Option (String × String) :=
  match pstripL line.data with
  | [] => none
  | c :: cs =>
    if c = '#' then none
    else if (c :: cs).contains '=' then
      let key := pstripL ((c :: cs).takeWhile (fun d => d != '='))
      let rawValue := pstripL (((c :: cs).dropWhile (fun d => d != '=')).drop 1)
      if rawValue.isEmpty then some (⟨key⟩, ⟨[]⟩)
      else if rawValue.contains '#' then
        some (⟨key⟩, ⟨pstripL (rawValue.takeWhile (fun d => d != '#'))⟩)
      else some (⟨key⟩, ⟨rawValue⟩)
    else none

/-- Python dict insertion semantics (3.7+): an existing key keeps its position
and gets the new value; a new key is appended at the end. -/
def dictInsert (d : List (String × String)) (k v : String) :
    List (String × String) :=
  if d.any (fun pr => pr.1 == k) then
    d.map (fun pr => if pr.1 == k then (k, v) else pr)
  else d ++ [(k, v)]

/-- One iteration of the parameter-file read loop. -/
def parsStep (d : List (String × String)) (line : String) :
    List (String × String) :=
  match parseParLine line with
  | some (k, v) => dictInsert d k v
  | none => d

/-- The parameter-file read loop of lines 115-128: the `pars` dictionary. -/
def loadPars (lines : List String) : List (String × String) :=
  lines.foldl parsStep []

lemma dictInsert_of_not_mem {d : List (String × String)} {k : String}
    (h : k ∉ d.map Prod.fst) (v : String) : dictInsert d k v = d ++ [(k, v)] := by
  unfold dictInsert
  have : d.any (fun pr => pr.1 == k) = false := by
    rw [List.any_eq_false]
    intro pr hpr
    simp only [beq_iff_eq]
    intro hk
    exact h (List.mem_map.mpr ⟨pr, hpr, hk⟩)
  rw [this]
  simp

lemma loadPars_go (lines : List String) : ∀ d : List (String × String),
    ((d ++ lines.filterMap parseParLine).map Prod.fst).Nodup →
    lines.foldl parsStep d = d ++ lines.filterMap parseParLine := by
  induction lines with
  | nil => intro d _; simp
  | cons line rest ih =>
    intro d hnd
    cases hp : parseParLine line with
    | none =>
      rw [List.foldl_cons, parsStep, hp]
      rw [List.filterMap_cons_none hp] at hnd ⊢
      exact ih d hnd
    | some kv =>
      obtain ⟨k, v⟩ := kv
      rw [List.filterMap_cons_some hp] at hnd ⊢
      have hk : k ∉ d.map Prod.fst := by
        rw [List.map_append, List.nodup_append] at hnd
        intro hmem
        exact hnd.2.2 hmem (by simp)
      simp only [List.foldl_cons, parsStep, hp]
      rw [dictInsert_of_not_mem hk]
      have heq : (d ++ [(k, v)]) ++ rest.filterMap parseParLine
          = d ++ (k, v) :: rest.filterMap parseParLine := by simp
      rw [ih (d ++ [(k, v)]) (by rw [heq]; exact hnd), heq]

lemma length_filterMap_eq_countP (f : String → Option (String × String))
    (lines : List String) :
    (lines.filterMap f).length = lines.countP (fun l => (f l).isSome) := by
  induction lines with
  | nil => simp
  | cons line rest ih =>
    cases hp : f line with
    | none => rw [List.filterMap_cons_none hp]; simp [List.countP_cons, hp, ih]
    | some kv => rw [List.filterMap_cons_some hp]; simp [List.countP_cons, hp, ih]

lemma pstrip_mk (l : List Char) : pstrip ⟨l⟩ = ⟨pstripL l⟩ := rfl

lemma pstrip_stripped (l : List Char) : pstrip ⟨pstripL l⟩ = ⟨pstripL l⟩ := by
  rw [pstrip_mk, pstripL_idem]

/-- Every stored parameter entry has a stripped key, a stripped value, and no
`#` left in the value. -/
lemma parseParLine_entry {line k v : String} (h : parseParLine line = some (k, v)) :
    pstrip k = k ∧ pstrip v = v ∧ '#' ∉ v.data := by
  unfold parseParLine at h
  split at h
  · exact absurd h (by simp)
  · split at h
    · exact absurd h (by simp)
    · split at h
      · dsimp only at h
        split at h
        · injection h with h1
          rw [Prod.mk.injEq] at h1
          obtain ⟨hk, hv⟩ := h1
          subst hk; subst hv
          refine ⟨pstrip_stripped _, ?_, by simp⟩
          rw [pstrip_mk]
          rfl
        · split at h
          · injection h with h1
            rw [Prod.mk.injEq] at h1
            obtain ⟨hk, hv⟩ := h1
            subst hk; subst hv
            refine ⟨pstrip_stripped _, pstrip_stripped _, ?_⟩
            intro hmem
            have h2 := mem_pstripL hmem
            have h3 := List.mem_takeWhile_imp h2
            simp at h3
          · injection h with h1
            rw [Prod.mk.injEq] at h1
            obtain ⟨hk, hv⟩ := h1
            subst hk; subst hv
            refine ⟨pstrip_stripped _, pstrip_stripped _, ?_⟩
            next hcontains =>
              intro hmem
              exact hcontains (by simpa using hmem)
      · exact absurd h (by simp)

/-- C4 counterexample: two well-formed `key=value` lines sharing the key `a`
produce a single dictionary entry (the later value overwrites the earlier
one), not two entries. -/
theorem C4_duplicate_key_counterexample :
    (loadPars ["a=1", "a=2"]).length = 1
    ∧ ["a=1", "a=2"].countP (fun l => (parseParLine l).isSome) = 2
    ∧ loadPars ["a=1", "a=2"] = [("a", "2")] := by
  refine ⟨?_, ?_, ?_⟩ <;> rfl

/-- C4 (amended): for a template whose well-formed `key=value` lines have
pairwise distinct keys, loading yields exactly one entry per such line, in
file order, each entry being that line's parse: key and value trimmed and any
inline `#` comment stripped from the value; a repeated key instead overwrites
the earlier entry in place, so the entry count is the number of DISTINCT keys. -/
theorem C4_config_load_amended (lines : List String)
    (hnd : ((lines.filterMap parseParLine).map Prod.fst).Nodup) :
    loadPars lines = lines.filterMap parseParLine
    ∧ (loadPars lines).length = lines.countP (fun l => (parseParLine l).isSome)
    ∧ ∀ pr ∈ loadPars lines,
        pstrip pr.1 = pr.1 ∧ pstrip pr.2 = pr.2 ∧ '#' ∉ pr.2.data := by
  have hmain : loadPars lines = lines.filterMap parseParLine := by
    unfold loadPars
    have := loadPars_go lines [] (by simpa using hnd)
    simpa using this
  refine ⟨hmain, ?_, ?_⟩
  · rw [hmain]; exact length_filterMap_eq_countP parseParLine lines
  · intro pr hpr
    rw [hmain] at hpr
    obtain ⟨line, -, hline⟩ := List.mem_filterMap.mp hpr
    obtain ⟨k, v⟩ := pr
    exact parseParLine_entry hline

/-- Witness for C4_config_load_amended on a two-line template with distinct
keys and an inline comment. -/
theorem C4_config_load_amended_witness :
    (((["a = 1", "b = 2 # note"].filterMap parseParLine).map Prod.fst).Nodup)
    ∧ loadPars ["a = 1", "b = 2 # note"]
        = ["a = 1", "b = 2 # note"].filterMap parseParLine :=
  ⟨by decide, (C4_config_load_amended ["a = 1", "b = 2 # note"] (by decide)).1⟩

/-- Python `str.split(sep)` for a one-character separator: split on every
occurrence, preserving empty fields (so "a,,b" gives three fields). -/
def splitOnChar (ch : Char) : List Char → List (List Char)
  | [] => [[]]
  | c :: rest =>
    match splitOnChar ch rest with
    | [] => [[]]
    | h :: t => if c = ch then [] :: h :: t else (c :: h) :: t

lemma splitOnChar_ne_nil (ch : Char) (l : List Char) : splitOnChar ch l ≠ [] := by
  induction l with
  | nil => simp [splitOnChar]
  | cons c rest ih =>
    unfold splitOnChar
    cases h : splitOnChar ch rest with
    | nil => exact absurd h ih
    | cons a t => by_cases hc : c = ch <;> simp [hc]

/-- Column count of a catalogue line: the number of comma-separated fields. -/
def colCount (l : List Char) : ℕ := (splitOnChar ',' l).length

lemma colCount_pos (l : List Char) : 0 < colCount l := by
  unfold colCount
  cases h : splitOnChar ',' l with
  | nil => exact absurd h (splitOnChar_ne_nil ',' l)
  | cons a t => simp

/-- A parsed catalogue row: the comma-separated fields, each stripped. -/
def parseRow (l : List Char) : List String :=
  (splitOnChar ',' l).map (fun f => (⟨pstripL f⟩ : String))

/-- The stripped content of a catalogue line, `none` when the line is skipped
(blank after stripping, or a `#` comment). -/
def dataLineOf (line : String) : Option (List Char) :=
  match pstripL line.data with
  | [] => none
  | c :: cs => if c = '#' then none else some (c :: cs)

/-- The stripped, non-comment catalogue lines, in file order. -/
def dataLines (lines : List String) : List (List Char) :=
  lines.filterMap dataLineOf

/-- The catalogue read loop of lines 158-168: accumulates stripped rows and
the established column count, aborting on a column-count change. -/
def catLoop : List String → List (List String) → ℕ →
    Except String (List (List String) × ℕ)
  | [], srcs, n => .ok (srcs, n)
  | line :: rest, srcs, n =>
    match pstripL line.data with
    | [] => catLoop rest srcs n
    | c :: cs =>
      if c = '#' then catLoop rest srcs n
      else
        let cols := splitOnChar ',' (c :: cs)
        if n ≠ cols.length ∧ 0 < n then
          .error "Variable number of catalogue columns encountered."
        else
          catLoop rest (srcs ++ [cols.map (fun f => (⟨pstripL f⟩ : String))])
            cols.length

/-- Catalogue loading, lines 156-173: the read loop plus the two fatal
checks (no sources; column count against the cube axis count plus one). -/
def loadCatalogue (lines : List String) (naxes : ℕ) :
    Except String (List (List String)) :=
  match catLoop lines [] 0 with
  | .error e => .error e
  | .ok (srcs, n_cols) =>
    if srcs.length = 0 then .error "No sources found in input catalogue."
    else if n_cols ≠ naxes + 1 then
      .error ("Data cube is " ++ toString naxes ++ "D, but "
        ++ toString (n_cols - 1) ++ " coordinate values given in catalogue.")
    else .ok srcs

lemma catLoop_pos (n : ℕ) (hn : 0 < n) : ∀ (lines : List String)
    (srcs : List (List String)),
    catLoop lines srcs n =
      if (dataLines lines).all (fun d => colCount d == n) then
        .ok (srcs ++ (dataLines lines).map parseRow, n)
      else .error "Variable number of catalogue columns encountered." := by
  intro lines
  induction lines with
  | nil => intro srcs; simp [catLoop, dataLines]
  | cons line rest ih =>
    intro srcs
    unfold catLoop
    cases hm : pstripL line.data with
    | nil =>
      have hnone : dataLineOf line = none := by simp [dataLineOf, hm]
      unfold dataLines
      rw [List.filterMap_cons_none hnone]
      exact ih srcs
    | cons c cs =>
      by_cases hc : c = '#'
      · have hnone : dataLineOf line = none := by simp [dataLineOf, hm, hc]
        unfold dataLines
        rw [List.filterMap_cons_none hnone]
        simp only [hc, if_true, ite_true]
        exact ih srcs
      · have hsome : dataLineOf line = some (c :: cs) := by simp [dataLineOf, hm, hc]
        unfold dataLines
        rw [List.filterMap_cons_some hsome]
        simp only [hc, if_false, ite_false]
        by_cases hcol : colCount (c :: cs) = n
        · have hlen : (splitOnChar ',' (c :: cs)).length = n := hcol
          rw [if_neg (by simp [hlen])]
          rw [hlen, ih (srcs ++ [(splitOnChar ',' (c :: cs)).map
            (fun f => (⟨pstripL f⟩ : String))])]
          rw [List.all_cons]
          have : (colCount (c :: cs) == n) = true := by simp [hcol]
          rw [this, Bool.true_and]
          by_cases hall : (dataLines rest).all (fun d => colCount d == n) <;>
            simp [hall, dataLines, parseRow]
        · rw [if_pos ⟨fun h => hcol h.symm, hn⟩]
          have : ((colCount (c :: cs) == n) : Bool) = false := by simp [hcol]
          rw [List.all_cons, this, Bool.false_and]
          simp

lemma catLoop_zero : ∀ lines : List String,
    catLoop lines [] 0 =
      match dataLines lines with
      | [] => .ok ([], 0)
      | d :: _ =>
        if (dataLines lines).all (fun e => colCount e == colCount d) then
          .ok ((dataLines lines).map parseRow, colCount d)
        else .error "Variable number of catalogue columns encountered." := by
  intro lines
  induction lines with
  | nil => simp [catLoop, dataLines]
  | cons line rest ih =>
    unfold catLoop
    cases hm : pstripL line.data with
    | nil =>
      have hnone : dataLineOf line = none := by simp [dataLineOf, hm]
      unfold dataLines
      rw [List.filterMap_cons_none hnone]
      exact ih
    | cons c cs =>
      by_cases hc : c = '#'
      · have hnone : dataLineOf line = none := by simp [dataLineOf, hm, hc]
        unfold dataLines
        rw [List.filterMap_cons_none hnone]
        simp only [hc, if_true, ite_true]
        exact ih
      · have hsome : dataLineOf line = some (c :: cs) := by simp [dataLineOf, hm, hc]
        unfold dataLines
        rw [List.filterMap_cons_some hsome]
        simp only [hc, if_false, ite_false]
        rw [if_neg (by simp), List.nil_append]
        rw [catLoop_pos ((splitOnChar ',' (c :: cs)).length)
          (colCount_pos (c :: cs)) rest
          ([(splitOnChar ',' (c :: cs)).map (fun f => (⟨pstripL f⟩ : String))])]
        rw [List.all_cons]
        have hself : ((colCount (c :: cs) == colCount (c :: cs)) : Bool) = true := by simp
        rw [show ((splitOnChar ',' (c :: cs)).length) = colCount (c :: cs) from rfl,
          hself, Bool.true_and]
        by_cases hall : (dataLines rest).all (fun e => colCount e == colCount (c :: cs)) <;>
          simp [hall, dataLines, parseRow]

/-- C6: catalogue loading is fatal exactly when some data line's column count
differs from the first data line's, or that column count is not the cube axis
count plus one, or no records were parsed; otherwise it returns every data
row in file order, split on commas with each field stripped. -/
theorem C6_catalogue_loading (lines : List String) (naxes : ℕ)
    (srcs : List (List String)) :
    loadCatalogue lines naxes = .ok srcs ↔
      (dataLines lines ≠ []
        ∧ (∀ d ∈ dataLines lines, colCount d = colCount ((dataLines lines).headD []))
        ∧ colCount ((dataLines lines).headD []) = naxes + 1
        ∧ srcs = (dataLines lines).map parseRow) := by
  unfold loadCatalogue
  rw [catLoop_zero lines]
  cases hd : dataLines lines with
  | nil => simp
  | cons d rest =>
    simp only [List.headD_cons, ne_eq, reduceCtorEq, not_false_eq_true, true_and]
    by_cases hall : ((d :: rest).all fun e => colCount e == colCount d) = true
    · rw [if_pos hall]
      have hlen : (List.map parseRow (d :: rest)).length ≠ 0 := by simp
      simp only [hlen, if_false, ite_false]
      by_cases hax : colCount d = naxes + 1
      · rw [if_neg (by simp [hax])]
        simp only [Except.ok.injEq]
        constructor
        · intro h
          refine ⟨?_, hax, h.symm⟩
          intro e he
          have := List.all_eq_true.mp hall e he
          simpa using this
        · rintro ⟨-, -, h⟩
          exact h.symm
      · rw [if_pos (by simp [hax])]
        simp only [reduceCtorEq, false_iff, not_and]
        intro _ h
        exact absurd h hax
    · rw [if_neg hall]
      simp only [reduceCtorEq, false_iff, not_and]
      intro hcols
      exfalso
      apply hall
      rw [List.all_eq_true]
      intro e he
      simpa using hcols e he

/-- Python dict lookup `pars[k]`: the value stored for `k`, if any. -/
def dictLookup (d : List (String × String)) (k : String) : Option String :=
  (d.find? (fun pr => pr.1 == k)).map Prod.snd

/-- Merge header-line test of line 245 on a line modelled without its trailing
newline: non-empty and starting with `#`. -/
def isHeaderLine (l : String) : Bool :=
  match l.data with
  | [] => false
  | c :: _ => c == '#'

/-- Python `line.isspace()` on a line whose trailing newline was stripped by
the model: every remaining character is whitespace. -/
def isBlankLine (l : String) : Bool := l.data.all isWS

/-- Merge content-line test of line 246: not blank and not a `#` line. -/
def isContentLine (l : String) : Bool := !isBlankLine l && !isHeaderLine l

/-- The merge read loop of lines 238-250, one step per file: while a header is
still needed every `#` line of the file goes to the header; every non-blank,
non-`#` line goes to the content; after each file the need_header flag is
cleared iff some header text has accumulated. -/
def mergeLoop : List (List String) → List String → List String → Bool →
    List String × List String
  | [], header, content, _ => (header, content)
  | f :: restFiles, header, content, need_header =>
    let header' := header ++ (if need_header then f.filter isHeaderLine else [])
    let content' := content ++ f.filter isContentLine
    mergeLoop restFiles header' content' (need_header && header'.isEmpty)

/-- The header the spec sentence describes: the run of LEADING `#` lines of
the first file that yields at least one `#` line. -/
def mergeHeaderLeadingSpec : List (List String) → List String
  | [] => []
  | f :: restFiles =>
    if (f.filter isHeaderLine).isEmpty then mergeHeaderLeadingSpec restFiles
    else f.takeWhile isHeaderLine

/-- The header the code computes: ALL `#` lines, in order, of the first file
that yields at least one `#` line. -/
def mergeHeaderAll : List (List String) → List String
  | [] => []
  | f :: restFiles =>
    if (f.filter isHeaderLine).isEmpty then mergeHeaderAll restFiles
    else f.filter isHeaderLine

lemma mergeLoop_false (files : List (List String)) : ∀ header content,
    mergeLoop files header content false =
      (header, content ++ files.flatMap (fun f => f.filter isContentLine)) := by
  induction files with
  | nil => intro header content; simp [mergeLoop]
  | cons f restFiles ih =>
    intro header content
    unfold mergeLoop
    simp only [if_false, ite_false, List.append_nil, Bool.false_and]
    rw [ih]
    simp

lemma mergeLoop_true (files : List (List String)) : ∀ content,
    mergeLoop files [] content true =
      (mergeHeaderAll files,
        content ++ files.flatMap (fun f => f.filter isContentLine)) := by
  induction files with
  | nil => intro content; simp [mergeLoop, mergeHeaderAll]
  | cons f restFiles ih =>
    intro content
    by_cases hf : List.filter isHeaderLine f = []
    · have h1 : mergeLoop (f :: restFiles) [] content true
          = mergeLoop restFiles [] (content ++ List.filter isContentLine f) true := by
        conv_lhs => rw [mergeLoop]
        simp [hf]
      rw [h1, ih]
      conv_rhs => rw [mergeHeaderAll]
      simp [hf]
    · have h1 : mergeLoop (f :: restFiles) [] content true
          = mergeLoop restFiles (List.filter isHeaderLine f)
              (content ++ List.filter isContentLine f) false := by
        conv_lhs => rw [mergeLoop]
        simp only [List.nil_append, if_true, ite_true, Bool.true_and]
        rw [show (List.filter isHeaderLine f).isEmpty = false from by
          cases he2 : (List.filter isHeaderLine f).isEmpty
          · rfl
          · exact absurd (List.isEmpty_iff.mp he2) hf]
      rw [h1, mergeLoop_false]
      conv_rhs => rw [mergeHeaderAll]
      simp [List.isEmpty_iff, hf]

/-- C3 counterexample: a single catalogue file whose `#` lines are not all
leading; the code's header keeps the trailing `#B` line, while the claimed
"run of leading `#` lines" is just `#A`. -/
theorem C3_merge_header_counterexample :
    (mergeLoop [["#A", "d1", "#B"]] [] [] true).1 = ["#A", "#B"]
    ∧ mergeHeaderLeadingSpec [["#A", "d1", "#B"]] = ["#A"]
    ∧ (mergeLoop [["#A", "d1", "#B"]] [] [] true).1
        ≠ mergeHeaderLeadingSpec [["#A", "d1", "#B"]] := by
  refine ⟨by rfl, by rfl, by decide⟩

/-- C3 (amended): the shared header consists of ALL `#`-prefixed lines, in
order, of the first per-source catalogue file that yields at least one
`#`-prefixed line (not only its leading run); `#` lines of all subsequent
files are discarded, and every non-blank, non-`#` line from every file is
appended to the body in file-processing order. -/
theorem C3_merge_header_amended (files : List (List String)) :
    mergeLoop files [] [] true =
      (mergeHeaderAll files,
        files.flatMap (fun f => f.filter isContentLine)) := by
  rw [mergeLoop_true]
  simp

/-- Failure modes of the script: an uncaught KeyError from an unguarded
dictionary lookup, or the one-line exit(1) diagnostic of exit_error. -/
inductive PyErr where
  | keyError (key : String)
  | exitError (message : String)
deriving DecidableEq, Repr

/-- Result of the merge phase: nothing happened, or one file was written. -/
inductive MergeOutcome where
  | noop
  | written (path : String) (contents : String)
deriving DecidableEq, Repr

/-- The output-directory adjustment of line 232: append a slash to a
non-empty directory that does not already end in one. -/
def mergeDir (od : String) : String :=
  if od ≠ "" ∧ od.back ≠ '/' then od ++ "/" else od

/-- Sequential reads of the per-source catalogues inside the merge loop
(lines 240-248); the first unreadable file aborts the merge via exit_error. -/
def readCatalogues (readFile : String → Option (List String)) (dir : String) :
    List String → Except PyErr (List (List String))
  | [] => .ok []
  | item :: rest =>
    match readFile (dir ++ item ++ "_cat.txt") with
    | none => .error (.exitError ("Failed to read SoFiA 2 catalogue: "
        ++ dir ++ item ++ "_cat.txt"))
    | some ls =>
      match readCatalogues readFile dir rest with
      | .error e => .error e
      | .ok fs => .ok (ls :: fs)

/-- Concatenation of accumulated lines as the Python string concatenation
does it, each line keeping its trailing newline. -/
def joinLines (ls : List String) : String :=
  String.join (ls.map (fun l => l ++ "\n"))

/-- The merge phase of lines 225-258: guarded on at least one recorded run;
looks up the output directory and the ASCII-format flag (an uncaught KeyError
when absent); when the flag is truthy (non-empty string), reads every
per-source catalogue, accumulates header and content, and writes the header,
one bare newline, then the content to the merged catalogue path. -/
def mergeStep (cat_names : List String) (pars : List (String × String))
    (readFile : String → Option (List String)) : Except PyErr MergeOutcome :=
  if cat_names.length ≠ 0 then
    match dictLookup pars "output.directory" with
    | none => .error (.keyError "output.directory")
    | some od =>
      match dictLookup pars "output.writeCatASCII" with
      | none => .error (.keyError "output.writeCatASCII")
      | some fmt_plain =>
        if fmt_plain ≠ "" then
          match readCatalogues readFile (mergeDir od) cat_names with
          | .error e => .error e
          | .ok files =>
            let hc := mergeLoop files [] [] true
            .ok (.written (mergeDir od ++ "optifind_merged_catalogue.txt")
              (joinLines hc.1 ++ "\n" ++ joinLines hc.2))
        else .ok .noop
  else .ok .noop

/-- C2: the merge phase is a no-op, not an error, whenever no run result was
recorded or the plain-ASCII output flag is blank (falsy): nothing is read,
no merged file is written, and the step succeeds. -/
theorem C2_merge_noop (cat_names : List String) (pars : List (String × String))
    (readFile : String → Option (List String)) (od fmt : String)
    (hod : dictLookup pars "output.directory" = some od)
    (hfmt : dictLookup pars "output.writeCatASCII" = some fmt)
    (h : cat_names = [] ∨ fmt = "") :
    mergeStep cat_names pars readFile = .ok .noop := by
  rcases h with h | h
  · subst h
    rfl
  · subst h
    unfold mergeStep
    by_cases hn : cat_names.length ≠ 0
    · rw [if_pos hn, hod, hfmt]
      simp
    · rw [if_neg hn]

/-- Witness for C2_merge_noop: one recorded run, keys present, blank flag. -/
theorem C2_merge_noop_witness :
    (dictLookup [("output.directory", "out"), ("output.writeCatASCII", "")]
        "output.directory" = some "out"
      ∧ dictLookup [("output.directory", "out"), ("output.writeCatASCII", "")]
        "output.writeCatASCII" = some ""
      ∧ (["optifind_42"] = ([] : List String) ∨ "" = ""))
    ∧ mergeStep ["optifind_42"]
        [("output.directory", "out"), ("output.writeCatASCII", "")]
        (fun _ => none) = .ok .noop :=
  ⟨⟨by rfl, by rfl, Or.inr rfl⟩,
    C2_merge_noop ["optifind_42"]
      [("output.directory", "out"), ("output.writeCatASCII", "")]
      (fun _ => none) "out" "" (by rfl) (by rfl) (Or.inr rfl)⟩

lemma mergeHeaderAll_nil (files : List (List String))
    (h : ∀ f ∈ files, f.filter isHeaderLine = []) : mergeHeaderAll files = [] := by
  induction files with
  | nil => rfl
  | cons f restFiles ih =>
    unfold mergeHeaderAll
    rw [if_pos (by simp [h f (by simp)])]
    exact ih (fun g hg => h g (by simp [hg]))

/-- C10: when the merge runs and no per-source catalogue contains any `#`
line, the merged file is still written, and its contents are a single bare
newline (the empty header block plus the separating newline) followed by the
concatenated body rows. -/
theorem C10_headerless_merge (cat_names : List String)
    (pars : List (String × String)) (readFile : String → Option (List String))
    (od fmt : String) (files : List (List String))
    (hn : cat_names ≠ [])
    (hod : dictLookup pars "output.directory" = some od)
    (hfmt : dictLookup pars "output.writeCatASCII" = some fmt)
    (hfmtne : fmt ≠ "")
    (hread : readCatalogues readFile (mergeDir od) cat_names = .ok files)
    (hnohash : ∀ f ∈ files, f.filter isHeaderLine = []) :
    mergeStep cat_names pars readFile =
      .ok (.written (mergeDir od ++ "optifind_merged_catalogue.txt")
        ("\n" ++ joinLines (files.flatMap (fun f => f.filter isContentLine)))) := by
  unfold mergeStep
  rw [if_pos (by simpa using hn)]
  simp only [hod, hfmt]
  rw [if_pos hfmtne]
  simp only [hread]
  rw [mergeLoop_true]
  simp only [List.nil_append, mergeHeaderAll_nil files hnohash]
  rw [show joinLines ([] : List String) = "" from rfl]
  rw [show ("" : String) ++ "\n" = "\n" from rfl]

/-- Witness for C10_headerless_merge: one run whose catalogue holds a single
data row and no header line. -/
theorem C10_headerless_merge_witness :
    ((["optifind_42"] : List String) ≠ []
      ∧ dictLookup [("output.directory", "out"), ("output.writeCatASCII", "true")]
          "output.directory" = some "out"
      ∧ dictLookup [("output.directory", "out"), ("output.writeCatASCII", "true")]
          "output.writeCatASCII" = some "true"
      ∧ ("true" : String) ≠ ""
      ∧ readCatalogues
          (fun path => if path = "out/optifind_42_cat.txt" then some ["1 2 3"] else none)
          (mergeDir "out") ["optifind_42"] = .ok [["1 2 3"]]
      ∧ (∀ f ∈ [["1 2 3"]], f.filter isHeaderLine = []))
    ∧ mergeStep ["optifind_42"]
        [("output.directory", "out"), ("output.writeCatASCII", "true")]
        (fun path => if path = "out/optifind_42_cat.txt" then some ["1 2 3"] else none)
      = .ok (.written (mergeDir "out" ++ "optifind_merged_catalogue.txt")
          ("\n" ++ joinLines ([["1 2 3"]].flatMap (fun f => f.filter isContentLine)))) :=
  ⟨⟨by decide, by rfl, by rfl, by decide, by rfl, by decide⟩,
    C10_headerless_merge ["optifind_42"]
      [("output.directory", "out"), ("output.writeCatASCII", "true")]
      (fun path => if path = "out/optifind_42_cat.txt" then some ["1 2 3"] else none)
      "out" "true" [["1 2 3"]]
      (by decide) (by rfl) (by rfl) (by decide) (by rfl) (by decide)⟩

/-- A catalogue source as the per-source loop consumes it: its id and its
pixel position on the three resolved axes (the world-to-pixel conversion of
lines 180-181 being the external WCS capability). -/
structure Src where
  id : String
  px : ℚ
  py : ℚ
  pz : ℚ

/-- Accumulated effects of the per-source loop of lines 177-222: ids for
which the external finder was invoked, recorded output base names
(RunResults, `cat_names`), and ids logged as skipped. -/
structure RunState where
  invoked : List String
  cat_names : List String
  skipped : List String
deriving DecidableEq, Repr

/-- The per-source loop of lines 177-222: each source's region is computed
and bounds-checked; an accepted source reads the template's
`output.filename` (an uncaught KeyError if the key is absent), records the
derived output name and runs the external finder; a rejected source is only
logged as skipped, and the loop continues with the remaining sources. -/
def processSources (pars : List (String × String)) (rSpat rSpec ex ey ez : ℤ) :
    List Src → RunState → Except PyErr RunState
  | [], st => .ok st
  | s :: rest, st =>
    let r := computeRegion s.px s.py s.pz rSpat rSpec ex ey ez
    if regionInBounds r rSpat rSpec then
      match dictLookup pars "output.filename" with
      | none => .error (.keyError "output.filename")
      | some tmpl =>
        processSources pars rSpat rSpec ex ey ez rest
          { invoked := st.invoked ++ [s.id]
            cat_names := st.cat_names ++ [deriveOutputFilename tmpl s.id]
            skipped := st.skipped }
    else
      processSources pars rSpat rSpec ex ey ez rest
        { st with skipped := st.skipped ++ [s.id] }

/-- C8: a source whose region is rejected is skipped entirely and this is not
an error: no finder invocation and no output name (RunResult) is added for
it, only a skip log entry, and processing continues with the remaining
sources exactly as if the rejected source were not there. -/
theorem C8_rejected_source_skipped (pars : List (String × String))
    (rSpat rSpec ex ey ez : ℤ) (s : Src) (rest : List Src) (st : RunState)
    (h : regionInBounds (computeRegion s.px s.py s.pz rSpat rSpec ex ey ez)
      rSpat rSpec = false) :
    processSources pars rSpat rSpec ex ey ez (s :: rest) st =
      processSources pars rSpat rSpec ex ey ez rest
        { st with skipped := st.skipped ++ [s.id] } := by
  conv_lhs => rw [processSources]
  rw [h]
  rfl

/-- Witness for C8_rejected_source_skipped: radii 1, extents 10, a source at
pixel -100 on the first axis is rejected and only logged as skipped. -/
theorem C8_rejected_source_skipped_witness :
    regionInBounds
        (computeRegion ((-100 : ℤ) : ℚ) ((5 : ℤ) : ℚ) ((5 : ℤ) : ℚ) 1 1 10 10 10) 1 1
      = false
    ∧ processSources [] 1 1 10 10 10
        [⟨"s1", ((-100 : ℤ) : ℚ), ((5 : ℤ) : ℚ), ((5 : ℤ) : ℚ)⟩] ⟨[], [], []⟩ =
      processSources [] 1 1 10 10 10 []
        { (⟨[], [], []⟩ : RunState) with skipped := [] ++ ["s1"] } := by
  have h : regionInBounds
      (computeRegion ((-100 : ℤ) : ℚ) ((5 : ℤ) : ℚ) ((5 : ℤ) : ℚ) 1 1 10 10 10) 1 1
      = false := by
    unfold regionInBounds computeRegion
    rw [regionAxis_int (-100) 1 10, regionAxis_int (5) 1 10]
    decide
  exact ⟨h, C8_rejected_source_skipped [] 1 1 10 10 10
    ⟨"s1", ((-100 : ℤ) : ℚ), ((5 : ℤ) : ℚ), ((5 : ℤ) : ℚ)⟩ [] ⟨[], [], []⟩ h⟩

/-- C9: the pipeline reads three template keys without guarding: once a
source's region is accepted, a template without `output.filename` makes the
run loop terminate with an uncaught KeyError; with at least one recorded run,
a template without `output.directory`, or without `output.writeCatASCII`,
makes the merge phase terminate with an uncaught KeyError - in each case a
key-lookup failure distinct from the exit_error one-line diagnostics used for
the specified fatal errors. -/
theorem C9_unguarded_key_lookups (pars : List (String × String))
    (rSpat rSpec ex ey ez : ℤ) (s : Src) (rest : List Src) (st : RunState)
    (cat_names : List String) (readFile : String → Option (List String))
    (od : String) :
    (regionInBounds (computeRegion s.px s.py s.pz rSpat rSpec ex ey ez)
        rSpat rSpec = true →
      dictLookup pars "output.filename" = none →
      processSources pars rSpat rSpec ex ey ez (s :: rest) st
        = .error (.keyError "output.filename"))
    ∧ (cat_names ≠ [] →
        dictLookup pars "output.directory" = none →
        mergeStep cat_names pars readFile = .error (.keyError "output.directory"))
    ∧ (cat_names ≠ [] →
        dictLookup pars "output.directory" = some od →
        dictLookup pars "output.writeCatASCII" = none →
        mergeStep cat_names pars readFile
          = .error (.keyError "output.writeCatASCII")) := by
  refine ⟨?_, ?_, ?_⟩
  · intro hin hkey
    conv_lhs => rw [processSources]
    rw [hin, hkey]
    rfl
  · intro hn hkey
    unfold mergeStep
    rw [if_pos (by simpa using hn), hkey]
  · intro hn hdir hkey
    unfold mergeStep
    rw [if_pos (by simpa using hn), hdir]
    simp only [hkey]

/-- Witness for C9_unguarded_key_lookups: an empty template dictionary, one
in-bounds source, and one recorded run name. -/
theorem C9_unguarded_key_lookups_witness :
    (regionInBounds
        (computeRegion ((5 : ℤ) : ℚ) ((5 : ℤ) : ℚ) ((5 : ℤ) : ℚ) 1 1 10 10 10) 1 1
        = true
      ∧ dictLookup [] "output.filename" = none
      ∧ (["optifind_42"] : List String) ≠ []
      ∧ dictLookup [] "output.directory" = none)
    ∧ processSources [] 1 1 10 10 10
        [⟨"42", ((5 : ℤ) : ℚ), ((5 : ℤ) : ℚ), ((5 : ℤ) : ℚ)⟩] ⟨[], [], []⟩
      = .error (.keyError "output.filename")
    ∧ mergeStep ["optifind_42"] [] (fun _ => none)
      = .error (.keyError "output.directory") := by
  have hin : regionInBounds
      (computeRegion ((5 : ℤ) : ℚ) ((5 : ℤ) : ℚ) ((5 : ℤ) : ℚ) 1 1 10 10 10) 1 1
      = true := by
    unfold regionInBounds computeRegion
    rw [regionAxis_int (5) 1 10]
    decide
  have H := C9_unguarded_key_lookups [] 1 1 10 10 10
    ⟨"42", ((5 : ℤ) : ℚ), ((5 : ℤ) : ℚ), ((5 : ℤ) : ℚ)⟩ [] ⟨[], [], []⟩
    ["optifind_42"] (fun _ => none) ""
  exact ⟨⟨hin, rfl, by decide, rfl⟩, H.1 hin rfl, H.2.1 (by decide) rfl⟩
